import Mathlib

/-!
Shallow embedding of src/mpl_image_segmenter/_segmenter.py.

The `ImageSegmenter` object keeps a class registry, a label mask, an RGBA
overlay, a current 1-based class index, an erasing flag and a history of
lasso polygons.  GUI wiring (figure, axes, LassoSelector, PanManager) and
the matplotlib containment test `Path.contains_points` are external
collaborators; the containment test is passed in as a function parameter.
-/

namespace MplImageSeg

/-- RGBA color with rational channels (matplotlib colors are floats). -/
structure RGBA where
  r : ℚ
  g : ℚ
  b : ℚ
  a : ℚ
deriving DecidableEq

/-- Fully transparent color, the list [0, 0, 0, 0] of the source. -/
def transparent : RGBA := ⟨0, 0, 0, 0⟩

/-- Class identifier: the Python registry holds ints or strings
    (`self._classes: list[str | int]`, line 74). -/
inductive Ident where
  | int (n : Int)
  | str (s : String)
deriving DecidableEq

/-- Lasso vertices as handed to `Path(verts)`; mouse coordinates are floats,
    modelled as rationals. -/
abbrev Polygon := List (ℚ × ℚ)

/-- State of an ImageSegmenter object: the attributes that carry the
    segmentation logic. `h`, `w` are the image height and width
    (`img.shape[:2]`); display objects are external and omitted. -/
structure SegState where
  h : Nat
  w : Nat
  maskAlpha : ℚ
  classes : List Ident
  nClasses : Nat
  maskColors : List RGBA
  mask : Nat → Nat → Nat
  overlay : Nat → Nat → RGBA
  curClassIdx : Nat
  erasing : Bool
  pathsAdding : List Polygon
  pathsErasing : List Polygon

/-- Value written to the current_class property, split by Python runtime
    type as the setter does: `isinstance(val, str)`, `isinstance(val,
    Integral)`, or anything else (which matches no branch). -/
inductive ClassVal where
  | str (s : String)
  | int (n : Int)
  | other

/-- Value written to the erasing property: a bool or anything else. -/
inductive EraseVal where
  | bool (b : Bool)
  | other

/-- Python list.index: position of the first occurrence of a value. -/
def listIndex : List Ident → Ident → Nat
  | [], _ => 0
  | c :: rest, v => if c = v then 0 else listIndex rest v + 1

/-- Setter of current_class (lines 174-188).  A string is looked up in the
    registry (ValueError when absent, else index+1, offset for the
    background); an Integral value must satisfy 0 < val < n_classes + 1 and
    is stored as the 1-based index itself; any other type matches no branch
    and the setter returns with no state change.  An error models a raised
    exception: the object is left unchanged by the caller. -/
def setCurrentClass (s : SegState) (val : ClassVal) : Except String SegState :=
  match val with
  | ClassVal.str t =>
      if Ident.str t ∈ s.classes then
        Except.ok { s with curClassIdx := listIndex s.classes (Ident.str t) + 1 }
      else
        Except.error "ValueError: val is not one of the classes"
  | ClassVal.int n =>
      if 0 < n ∧ n < (s.nClasses : Int) + 1 then
        Except.ok { s with curClassIdx := n.toNat }
      else
        Except.error "ValueError: current class must be between 1 and n_classes"
  | ClassVal.other => Except.ok s

/-- Getter of current_class (lines 170-172): `self._classes[self._cur_class_idx - 1]`.
    none models an IndexError, unreachable in states the constructor produces. -/
def current_class (s : SegState) : Option Ident :=
  s.classes[s.curClassIdx - 1]?

/-- Setter of erasing (lines 164-168): TypeError unless the value is a bool. -/
def setErasing (s : SegState) (val : EraseVal) : Except String SegState :=
  match val with
  | EraseVal.bool b => Except.ok { s with erasing := b }
  | EraseVal.other => Except.error "TypeError: erasing must be a bool"

/-- Selection callback _onselect (lines 201-214).  `contains verts pt`
    stands for matplotlib's `Path(verts).contains_points` at the query
    point pt, the external collaborator; the pixel grid built by meshgrid
    (lines 145-148) queries the point (x = column, y = row), so the cell at
    row i, column j is tested at (j, i).  Indexing `mask_colors[cur - 1]`
    is rendered total with getD; in every state the constructor returns the
    index is in range (the constructor would have raised otherwise). -/
def onselect (contains : Polygon → ℚ × ℚ → Bool) (verts : Polygon)
    (s : SegState) : SegState :=
  if s.erasing then
    { s with
      mask := fun i j =>
        if contains verts ((j : ℚ), (i : ℚ)) then 0 else s.mask i j
      overlay := fun i j =>
        if contains verts ((j : ℚ), (i : ℚ)) then transparent
        else s.overlay i j
      pathsErasing := s.pathsErasing ++ [verts] }
  else
    { s with
      mask := fun i j =>
        if contains verts ((j : ℚ), (i : ℚ)) then s.curClassIdx
        else s.mask i j
      overlay := fun i j =>
        if contains verts ((j : ℚ), (i : ℚ)) then
          s.maskColors.getD (s.curClassIdx - 1) transparent
        else s.overlay i j
      pathsAdding := s.pathsAdding ++ [verts] }

/-- Class specification argument: an Integral count or an explicit list
    (lines 73-76). -/
inductive ClassesSpec where
  | count (n : Nat)
  | list (l : List Ident)

/-- Registry built from the class specification: `list(range(classes))`
    for a count, else the given list (lines 73-76). -/
def classesOf : ClassesSpec → List Ident
  | ClassesSpec.count n => (List.range n).map fun k => Ident.int (Int.ofNat k)
  | ClassesSpec.list l => l

/-- Line 90: the alpha channel of every color is forced to mask_alpha. -/
def setAlpha (alpha : ℚ) (c : RGBA) : RGBA := { c with a := alpha }

/-- Lines 78-90: explicit mask_colors are taken as given; otherwise the
    first n entries of the tableau palette (10 entries) or, for more than
    10 classes, of the xkcd palette (949 entries).  The palettes are
    external matplotlib data and are passed in.  Every color then has its
    alpha forced to mask_alpha. -/
def chooseColors (tableau xkcd : List RGBA) (nClasses : Nat)
    (maskColors : Option (List RGBA)) (alpha : ℚ) : List RGBA :=
  (match maskColors with
   | none => if nClasses ≤ 10 then tableau.take nClasses else xkcd.take nClasses
   | some cs => cs).map (setAlpha alpha)

/-- One iteration of the overlay construction loop (lines 101-106) for
    class value i: cells whose mask equals i get the transparent color
    (i = 0) or mask_colors[i-1].  The numpy RHS `self.mask_colors[i - 1]`
    is evaluated even when no cell matches, so an out-of-range index is an
    IndexError regardless of the mask contents. -/
def overlayStep (colors : List RGBA) (mask : Nat → Nat → Nat)
    (ov : Nat → Nat → RGBA) (i : Nat) : Except String (Nat → Nat → RGBA) :=
  if i = 0 then
    Except.ok fun r c => if mask r c = 0 then transparent else ov r c
  else
    match colors[i - 1]? with
    | some col => Except.ok fun r c => if mask r c = i then col else ov r c
    | none => Except.error "IndexError: mask_colors index out of range"

/-- Lines 100-106: `self._overlay = np.zeros(...)` then the loop
    `for i in range(self._n_classes + 1)` in ascending order. -/
def buildOverlay (colors : List RGBA) (mask : Nat → Nat → Nat) :
    Nat → Except String (Nat → Nat → RGBA)
  | 0 => overlayStep colors mask (fun _ _ => transparent) 0
  | n + 1 =>
      match buildOverlay colors mask n with
      | Except.ok ov => overlayStep colors mask ov (n + 1)
      | Except.error e => Except.error e

/-- Constructor __init__ (lines 22-154) restricted to segmentation state:
    registry and n_classes (73-77), mask colors (78-90), mask seeded or
    zero-filled (94-98), overlay replayed from the mask (100-106), then
    `self.current_class = 1` through the setter (152), erasing False and
    empty histories (153-154).  GUI wiring is external.  An error models an
    exception escaping __init__. -/
def init (tableau xkcd : List RGBA) (h w : Nat) (classes : ClassesSpec)
    (mask : Option (Nat → Nat → Nat)) (maskColors : Option (List RGBA))
    (maskAlpha : ℚ) : Except String SegState :=
  match buildOverlay
      (chooseColors tableau xkcd (classesOf classes).length maskColors maskAlpha)
      (mask.getD fun _ _ => 0) (classesOf classes).length with
  | Except.error e => Except.error e
  | Except.ok ov =>
      setCurrentClass
        { h := h, w := w, maskAlpha := maskAlpha, classes := classesOf classes,
          nClasses := (classesOf classes).length,
          maskColors := chooseColors tableau xkcd (classesOf classes).length
            maskColors maskAlpha,
          mask := mask.getD fun _ _ => 0, overlay := ov,
          curClassIdx := 0, erasing := false,
          pathsAdding := [], pathsErasing := [] }
        (ClassVal.int 1)

/-- Operations a caller can perform on a constructed object: a completed
    lasso gesture, or a write to one of the two properties. -/
inductive Op where
  | select (verts : Polygon)
  | setClass (v : ClassVal)
  | setErase (v : EraseVal)

/-- An exception raised by a property setter propagates to the caller and
    leaves the object unchanged. -/
def orStay (s : SegState) : Except String SegState → SegState
  | Except.ok t => t
  | Except.error _ => s

/-- One caller operation on the object. -/
def step (contains : Polygon → ℚ × ℚ → Bool) (s : SegState) : Op → SegState
  | Op.select verts => onselect contains verts s
  | Op.setClass v => orStay s (setCurrentClass s v)
  | Op.setErase v => orStay s (setErasing s v)

/-- A sequence of caller operations. -/
def run (contains : Polygon → ℚ × ℚ → Bool) (s : SegState)
    (ops : List Op) : SegState :=
  ops.foldl (step contains) s

/-- Whether an Except carries a value (no exception was raised). -/
def exOk {α : Type} : Except String α → Bool
  | Except.ok _ => true
  | Except.error _ => false

/-- Well-formedness of a segmenter state: n_classes caches the registry
    length, the current index is a valid 1-based index, and the color
    table covers every class. -/
def SegWF (s : SegState) : Prop :=
  s.nClasses = s.classes.length ∧
  1 ≤ s.curClassIdx ∧ s.curClassIdx ≤ s.nClasses ∧
  s.nClasses ≤ s.maskColors.length

/-- Mask/overlay synchronization invariant: on every grid cell the mask
    value is a class in [0, n] and the overlay is the pure function of the
    mask and the color table. -/
def SegInv (s : SegState) : Prop :=
  SegWF s ∧ ∀ i, i < s.h → ∀ j, j < s.w →
    s.mask i j ≤ s.nClasses ∧
    (s.mask i j = 0 → s.overlay i j = transparent) ∧
    (1 ≤ s.mask i j →
      s.maskColors[s.mask i j - 1]? = some (s.overlay i j))

/-- Placeholder palette standing in for the ten tableau colors (the claims
    never depend on the concrete channel values). -/
def pal10 : List RGBA := List.replicate 10 ⟨0, 0, 0, 1⟩

/-- Concrete well-formed state used to instantiate theorems: a 3x3 image
    with two anonymous integer classes. -/
def demoState : SegState :=
  { h := 3, w := 3, maskAlpha := 1,
    classes := [Ident.int 0, Ident.int 1], nClasses := 2,
    maskColors := [⟨1, 0, 0, 1⟩, ⟨0, 1, 0, 1⟩],
    mask := fun _ _ => 0, overlay := fun _ _ => transparent,
    curClassIdx := 1, erasing := false,
    pathsAdding := [], pathsErasing := [] }

/-- Concrete state with a string registry. -/
def demoStrState : SegState :=
  { h := 3, w := 3, maskAlpha := 1,
    classes := [Ident.str "cat", Ident.str "dog"], nClasses := 2,
    maskColors := [⟨1, 0, 0, 1⟩, ⟨0, 1, 0, 1⟩],
    mask := fun _ _ => 0, overlay := fun _ _ => transparent,
    curClassIdx := 1, erasing := false,
    pathsAdding := [], pathsErasing := [] }

/-- Containment test of a polygon containing every point. -/
def cAll : Polygon → ℚ × ℚ → Bool := fun _ _ => true

/-- Containment test of a polygon containing no point. -/
def cNone : Polygon → ℚ × ℚ → Bool := fun _ _ => false

/-- State produced by a concrete successful construction: 2x2 image, one
    anonymous class, default mask and colors. -/
def initEx : SegState :=
  orStay demoState (init pal10 [] 2 2 (ClassesSpec.count 1) none none 1)

/-!
Helper lemmas.
-/

theorem listIndex_lt_length {l : List Ident} {v : Ident} (hv : v ∈ l) :
    listIndex l v < l.length := by
  induction l with
  | nil => simp at hv
  | cons c rest ih =>
      by_cases hc : c = v
      · simp [listIndex, hc]
      · have h : v ∈ rest := by
          rcases List.mem_cons.mp hv with h | h
          · exact absurd h.symm hc
          · exact h
        simpa [listIndex, hc] using ih h

theorem getElem?_listIndex {l : List Ident} {v : Ident} (hv : v ∈ l) :
    l[listIndex l v]? = some v := by
  induction l with
  | nil => simp at hv
  | cons c rest ih =>
      by_cases hc : c = v
      · simp [listIndex, hc]
      · have h : v ∈ rest := by
          rcases List.mem_cons.mp hv with h | h
          · exact absurd h.symm hc
          · exact h
        simp [listIndex, hc, ih h]

theorem getD_of_getElem? {l : List RGBA} {n : Nat} {c : RGBA}
    (hc : l[n]? = some c) : l.getD n transparent = c := by
  simp [List.getD_eq_getElem?_getD, hc]

theorem overlayStep_ok_pos {colors : List RGBA} {mask : Nat → Nat → Nat}
    {ov ov2 : Nat → Nat → RGBA} {i : Nat} (hi : i ≠ 0)
    (h : overlayStep colors mask ov i = Except.ok ov2) :
    ∃ col, colors[i - 1]? = some col ∧
      ov2 = fun r c => if mask r c = i then col else ov r c := by
  unfold overlayStep at h
  rw [if_neg hi] at h
  cases hcol : colors[i - 1]? with
  | none => rw [hcol] at h; cases h
  | some col =>
      rw [hcol] at h
      injection h with h
      exact ⟨col, rfl, h.symm⟩

theorem buildOverlay_le {colors : List RGBA} {mask : Nat → Nat → Nat}
    {n : Nat} {ov : Nat → Nat → RGBA}
    (h : buildOverlay colors mask n = Except.ok ov) : n ≤ colors.length := by
  cases n with
  | zero => exact Nat.zero_le _
  | succ m =>
      unfold buildOverlay at h
      cases hb : buildOverlay colors mask m with
      | error e => rw [hb] at h; cases h
      | ok ov1 =>
          rw [hb] at h
          obtain ⟨col, hcol, _⟩ := overlayStep_ok_pos (Nat.succ_ne_zero m) h
          have hlt := (List.getElem?_eq_some.mp hcol).1
          omega

theorem buildOverlay_ok {colors : List RGBA} {mask : Nat → Nat → Nat} :
    ∀ {n : Nat}, n ≤ colors.length →
      ∃ ov, buildOverlay colors mask n = Except.ok ov := by
  intro n
  induction n with
  | zero => intro _; exact ⟨_, rfl⟩
  | succ m ih =>
      intro hn
      obtain ⟨ov, hov⟩ := ih (Nat.le_of_succ_le hn)
      have hm : m < colors.length := hn
      refine ⟨fun r c => if mask r c = m + 1 then colors.get ⟨m, hm⟩ else ov r c, ?_⟩
      unfold buildOverlay
      simp only [hov]
      unfold overlayStep
      rw [if_neg (by omega : ¬(m + 1 = 0))]
      have hsome : colors[m + 1 - 1]? = some (colors.get ⟨m, hm⟩) := by
        simp [List.getElem?_eq_getElem hm]
      rw [hsome]

theorem buildOverlay_spec {colors : List RGBA} {mask : Nat → Nat → Nat} :
    ∀ {n : Nat} {ov : Nat → Nat → RGBA},
      buildOverlay colors mask n = Except.ok ov → ∀ r c,
        (mask r c ≤ n →
          (mask r c = 0 → ov r c = transparent) ∧
          (1 ≤ mask r c → colors[mask r c - 1]? = some (ov r c))) ∧
        (n < mask r c → ov r c = transparent) := by
  intro n
  induction n with
  | zero =>
      intro ov h r c
      unfold buildOverlay overlayStep at h
      rw [if_pos rfl] at h
      injection h with h
      constructor
      · intro hle
        refine ⟨fun h0 => ?_, fun h1 => ?_⟩
        · rw [← h]; simp [h0]
        · omega
      · intro _
        rw [← h]; simp
  | succ m ih =>
      intro ov h r c
      unfold buildOverlay at h
      cases hb : buildOverlay colors mask m with
      | error e => rw [hb] at h; cases h
      | ok ov1 =>
          rw [hb] at h
          obtain ⟨col, hcol, hov⟩ := overlayStep_ok_pos (Nat.succ_ne_zero m) h
          subst hov
          have ihrc := ih hb r c
          by_cases hm : mask r c = m + 1
          · refine ⟨fun _ => ⟨fun h0 => ?_, fun _ => ?_⟩, fun hgt => ?_⟩
            · omega
            · simpa [hm] using hcol
            · omega
          · refine ⟨fun hle => ?_, fun hgt => ?_⟩
            · have hle' : mask r c ≤ m := by omega
              refine ⟨fun h0 => ?_, fun h1 => ?_⟩
              · simpa [hm] using (ihrc.1 hle').1 h0
              · simpa [hm] using (ihrc.1 hle').2 h1
            · have hgt' : m < mask r c := by omega
              simpa [hm] using ihrc.2 hgt'

theorem init_ok_elim {tableau xkcd : List RGBA} {h w : Nat}
    {classes : ClassesSpec} {mask : Option (Nat → Nat → Nat)}
    {maskColors : Option (List RGBA)} {maskAlpha : ℚ} {s : SegState}
    (hok : init tableau xkcd h w classes mask maskColors maskAlpha =
      Except.ok s) :
    ∃ ov, buildOverlay
        (chooseColors tableau xkcd (classesOf classes).length maskColors maskAlpha)
        (mask.getD fun _ _ => 0) (classesOf classes).length = Except.ok ov ∧
      1 ≤ (classesOf classes).length ∧
      s = { h := h, w := w, maskAlpha := maskAlpha, classes := classesOf classes,
            nClasses := (classesOf classes).length,
            maskColors := chooseColors tableau xkcd (classesOf classes).length
              maskColors maskAlpha,
            mask := mask.getD fun _ _ => 0, overlay := ov, curClassIdx := 1,
            erasing := false, pathsAdding := [], pathsErasing := [] } := by
  unfold init at hok
  cases hb : buildOverlay
      (chooseColors tableau xkcd (classesOf classes).length maskColors maskAlpha)
      (mask.getD fun _ _ => 0) (classesOf classes).length with
  | error e => rw [hb] at hok; cases hok
  | ok ov =>
      rw [hb] at hok
      simp only [setCurrentClass] at hok
      by_cases hcond :
          (0 : Int) < 1 ∧ (1 : Int) < ((classesOf classes).length : Int) + 1
      · rw [if_pos hcond] at hok
        injection hok with hok
        refine ⟨ov, rfl, ?_, ?_⟩
        · have h2 := hcond.2
          omega
        · rw [← hok]
          simp
      · rw [if_neg hcond] at hok
        cases hok

/-!
Preservation of the invariant.
-/

theorem segInv_onselect (contains : Polygon → ℚ × ℚ → Bool) (verts : Polygon)
    {s : SegState} (hs : SegInv s) : SegInv (onselect contains verts s) := by
  obtain ⟨⟨hlen, hc1, hc2, hc3⟩, hpt⟩ := hs
  unfold onselect
  cases he : s.erasing with
  | true =>
      rw [if_pos rfl]
      refine ⟨⟨hlen, hc1, hc2, hc3⟩, ?_⟩
      intro i hi j hj
      dsimp only
      by_cases hc : contains verts ((j : ℚ), (i : ℚ)) = true
      · refine ⟨?_, fun _ => ?_, fun h1 => ?_⟩
        · simp [hc]
        · simp [hc]
        · simp [hc] at h1
      · refine ⟨?_, fun h0 => ?_, fun h1 => ?_⟩
        · simpa [hc] using (hpt i hi j hj).1
        · rw [if_neg hc] at h0
          rw [if_neg hc]
          exact (hpt i hi j hj).2.1 h0
        · rw [if_neg hc] at h1
          rw [if_neg hc, if_neg hc]
          exact (hpt i hi j hj).2.2 h1
  | false =>
      rw [if_neg Bool.false_ne_true]
      refine ⟨⟨hlen, hc1, hc2, hc3⟩, ?_⟩
      intro i hi j hj
      dsimp only
      by_cases hc : contains verts ((j : ℚ), (i : ℚ)) = true
      · have hlt : s.curClassIdx - 1 < s.maskColors.length := by omega
        have hsome : s.maskColors[s.curClassIdx - 1]? =
            some (s.maskColors.get ⟨s.curClassIdx - 1, hlt⟩) := by
          simp [List.getElem?_eq_getElem hlt]
        refine ⟨?_, fun h0 => ?_, fun _ => ?_⟩
        · simpa [hc] using hc2
        · rw [if_pos hc] at h0; omega
        · rw [if_pos hc, if_pos hc, getD_of_getElem? hsome]
          exact hsome
      · refine ⟨?_, fun h0 => ?_, fun h1 => ?_⟩
        · simpa [hc] using (hpt i hi j hj).1
        · rw [if_neg hc] at h0
          rw [if_neg hc]
          exact (hpt i hi j hj).2.1 h0
        · rw [if_neg hc] at h1
          rw [if_neg hc, if_neg hc]
          exact (hpt i hi j hj).2.2 h1

theorem segInv_setClass (v : ClassVal) {s : SegState} (hs : SegInv s) :
    SegInv (orStay s (setCurrentClass s v)) := by
  obtain ⟨⟨hlen, hc1, hc2, hc3⟩, hpt⟩ := hs
  cases v with
  | other => exact ⟨⟨hlen, hc1, hc2, hc3⟩, hpt⟩
  | str t =>
      simp only [setCurrentClass]
      by_cases hm : Ident.str t ∈ s.classes
      · rw [if_pos hm]
        have hidx := listIndex_lt_length hm
        refine ⟨⟨hlen, ?_, ?_, hc3⟩, hpt⟩
        · show 1 ≤ listIndex s.classes (Ident.str t) + 1
          omega
        · show listIndex s.classes (Ident.str t) + 1 ≤ s.nClasses
          omega
      · rw [if_neg hm]
        exact ⟨⟨hlen, hc1, hc2, hc3⟩, hpt⟩
  | int n =>
      simp only [setCurrentClass]
      by_cases hcond : 0 < n ∧ n < (s.nClasses : Int) + 1
      · rw [if_pos hcond]
        obtain ⟨hp, hq⟩ := hcond
        refine ⟨⟨hlen, ?_, ?_, hc3⟩, hpt⟩
        · show 1 ≤ n.toNat
          omega
        · show n.toNat ≤ s.nClasses
          omega
      · rw [if_neg hcond]
        exact ⟨⟨hlen, hc1, hc2, hc3⟩, hpt⟩

theorem segInv_setErase (v : EraseVal) {s : SegState} (hs : SegInv s) :
    SegInv (orStay s (setErasing s v)) := by
  obtain ⟨⟨hlen, hc1, hc2, hc3⟩, hpt⟩ := hs
  cases v with
  | bool b => exact ⟨⟨hlen, hc1, hc2, hc3⟩, hpt⟩
  | other => exact ⟨⟨hlen, hc1, hc2, hc3⟩, hpt⟩

theorem segInv_step (contains : Polygon → ℚ × ℚ → Bool) (op : Op)
    {s : SegState} (hs : SegInv s) : SegInv (step contains s op) := by
  cases op with
  | select verts => exact segInv_onselect contains verts hs
  | setClass v => exact segInv_setClass v hs
  | setErase v => exact segInv_setErase v hs

theorem segInv_run (contains : Polygon → ℚ × ℚ → Bool) (ops : List Op)
    {s : SegState} (hs : SegInv s) : SegInv (run contains s ops) := by
  induction ops generalizing s with
  | nil => exact hs
  | cons op rest ih => exact ih (segInv_step contains op hs)

theorem segInv_init {tableau xkcd : List RGBA} {h w : Nat}
    {classes : ClassesSpec} {mask : Option (Nat → Nat → Nat)}
    {maskColors : Option (List RGBA)} {maskAlpha : ℚ} {s : SegState}
    (hok : init tableau xkcd h w classes mask maskColors maskAlpha =
      Except.ok s)
    (hseed : ∀ r, r < h → ∀ c, c < w →
      (mask.getD fun _ _ => 0) r c ≤ (classesOf classes).length) :
    SegInv s := by
  obtain ⟨ov, hb, hn, rfl⟩ := init_ok_elim hok
  refine ⟨⟨rfl, le_refl 1, hn, buildOverlay_le hb⟩, ?_⟩
  intro i hi j hj
  have hspec := buildOverlay_spec hb i j
  have hm := hseed i hi j hj
  exact ⟨hm, (hspec.1 hm).1, (hspec.1 hm).2⟩

/-!
Claim theorems.
-/

/-- C1: for every completed lasso gesture with vertex list verts, on every
    grid cell contained in the closed polygon the mask becomes 0 and the
    overlay fully transparent when erasing, else the mask becomes the
    current 1-based class index and the overlay the color-table entry of
    the current class; every cell not contained keeps its previous mask
    and overlay values. -/
theorem claim_c1 (s : SegState) (contains : Polygon → ℚ × ℚ → Bool)
    (verts : Polygon) (col : RGBA) (i j : Nat)
    (hcol : s.maskColors[s.curClassIdx - 1]? = some col)
    (hi : i < s.h) (hj : j < s.w) :
    (contains verts ((j : ℚ), (i : ℚ)) = true →
      (s.erasing = true →
        (onselect contains verts s).mask i j = 0 ∧
        (onselect contains verts s).overlay i j = transparent) ∧
      (s.erasing = false →
        (onselect contains verts s).mask i j = s.curClassIdx ∧
        (onselect contains verts s).overlay i j = col)) ∧
    (contains verts ((j : ℚ), (i : ℚ)) = false →
      (onselect contains verts s).mask i j = s.mask i j ∧
      (onselect contains verts s).overlay i j = s.overlay i j) := by
  unfold onselect
  constructor
  · intro hc
    constructor
    · intro he
      rw [if_pos he]
      constructor
      · show (if contains verts ((j : ℚ), (i : ℚ)) = true then 0
          else s.mask i j) = 0
        rw [if_pos hc]
      · show (if contains verts ((j : ℚ), (i : ℚ)) = true then transparent
          else s.overlay i j) = transparent
        rw [if_pos hc]
    · intro he
      rw [if_neg (by rw [he]; exact Bool.false_ne_true)]
      constructor
      · show (if contains verts ((j : ℚ), (i : ℚ)) = true then s.curClassIdx
          else s.mask i j) = s.curClassIdx
        rw [if_pos hc]
      · show (if contains verts ((j : ℚ), (i : ℚ)) = true then
            s.maskColors.getD (s.curClassIdx - 1) transparent
          else s.overlay i j) = col
        rw [if_pos hc]
        exact getD_of_getElem? hcol
  · intro hc
    have hcf : ¬ contains verts ((j : ℚ), (i : ℚ)) = true := by
      rw [hc]; exact Bool.false_ne_true
    cases he : s.erasing with
    | true =>
        rw [if_pos rfl]
        exact ⟨by simp [hcf], by simp [hcf]⟩
    | false =>
        rw [if_neg Bool.false_ne_true]
        exact ⟨by simp [hcf], by simp [hcf]⟩

/-- Witness for C1 on a concrete state, an everywhere-true containment
    test and the cell (1, 1). -/
theorem claim_c1_wit :
    demoState.maskColors[demoState.curClassIdx - 1]? = some ⟨1, 0, 0, 1⟩ ∧
    (1 : Nat) < demoState.h ∧ (1 : Nat) < demoState.w ∧
    (onselect cAll [] demoState).mask 1 1 = demoState.curClassIdx ∧
    (onselect cAll [] demoState).overlay 1 1 = ⟨1, 0, 0, 1⟩ :=
  ⟨by decide, by decide, by decide,
    ((claim_c1 demoState cAll [] ⟨1, 0, 0, 1⟩ 1 1 (by decide) (by decide)
      (by decide)).1 rfl).2 rfl⟩

/-- C2: after construction (with a seed mask whose values lie in [0, N])
    and after any sequence of selection events and property writes, every
    grid cell of the overlay is the pure function of the label mask and
    the color table: fully transparent where the mask is 0, the
    color-table entry for class k where the mask holds k in [1, N]; mask
    values stay in [0, N]. -/
theorem claim_c2 (tableau xkcd : List RGBA) (hh ww : Nat)
    (classes : ClassesSpec) (mask : Option (Nat → Nat → Nat))
    (maskColors : Option (List RGBA)) (maskAlpha : ℚ) (s0 : SegState)
    (contains : Polygon → ℚ × ℚ → Bool) (ops : List Op) (i j : Nat)
    (hok : init tableau xkcd hh ww classes mask maskColors maskAlpha =
      Except.ok s0)
    (hseed : ∀ r, r < hh → ∀ c, c < ww →
      (mask.getD fun _ _ => 0) r c ≤ (classesOf classes).length)
    (hi : i < (run contains s0 ops).h) (hj : j < (run contains s0 ops).w) :
    (run contains s0 ops).mask i j ≤ (run contains s0 ops).nClasses ∧
    ((run contains s0 ops).mask i j = 0 →
      (run contains s0 ops).overlay i j = transparent) ∧
    (1 ≤ (run contains s0 ops).mask i j →
      (run contains s0 ops).maskColors[(run contains s0 ops).mask i j - 1]? =
        some ((run contains s0 ops).overlay i j)) :=
  (segInv_run contains ops (segInv_init hok hseed)).2 i hi j hj

/-- Witness for C2: a concrete 2x2 construction followed by one full-grid
    selection, checked at cell (0, 0). -/
theorem claim_c2_wit :
    init pal10 [] 2 2 (ClassesSpec.count 1) none none 1 = Except.ok initEx ∧
    ((run cAll initEx [Op.select []]).mask 0 0 ≤
        (run cAll initEx [Op.select []]).nClasses ∧
      ((run cAll initEx [Op.select []]).mask 0 0 = 0 →
        (run cAll initEx [Op.select []]).overlay 0 0 = transparent) ∧
      (1 ≤ (run cAll initEx [Op.select []]).mask 0 0 →
        (run cAll initEx [Op.select []]).maskColors[
            (run cAll initEx [Op.select []]).mask 0 0 - 1]? =
          some ((run cAll initEx [Op.select []]).overlay 0 0))) :=
  ⟨rfl, claim_c2 pal10 [] 2 2 (ClassesSpec.count 1) none none 1 initEx cAll
    [Op.select []] 0 0 rfl (by decide) (by decide) (by decide)⟩

/-- C7: a gesture whose polygon contains no grid cell leaves every cell of
    the mask and overlay unchanged and the opposite-mode history
    unchanged, while the history of the current mode is appended to,
    growing by exactly one entry. -/
theorem claim_c7 (s : SegState) (contains : Polygon → ℚ × ℚ → Bool)
    (verts : Polygon)
    (hempty : ∀ a, a < s.h → ∀ b, b < s.w →
      contains verts ((b : ℚ), (a : ℚ)) = false) :
    (∀ i, i < s.h → ∀ j, j < s.w →
      (onselect contains verts s).mask i j = s.mask i j ∧
      (onselect contains verts s).overlay i j = s.overlay i j) ∧
    (s.erasing = true →
      (onselect contains verts s).pathsErasing = s.pathsErasing ++ [verts] ∧
      (onselect contains verts s).pathsAdding = s.pathsAdding ∧
      (onselect contains verts s).pathsErasing.length =
        s.pathsErasing.length + 1) ∧
    (s.erasing = false →
      (onselect contains verts s).pathsAdding = s.pathsAdding ++ [verts] ∧
      (onselect contains verts s).pathsErasing = s.pathsErasing ∧
      (onselect contains verts s).pathsAdding.length =
        s.pathsAdding.length + 1) := by
  unfold onselect
  cases he : s.erasing with
  | true =>
      rw [if_pos rfl]
      refine ⟨?_, fun _ => ⟨rfl, rfl, by simp⟩,
        fun hf => absurd hf (by simp)⟩
      intro i hi j hj
      have hcf : ¬ contains verts ((j : ℚ), (i : ℚ)) = true := by
        rw [hempty i hi j hj]; exact Bool.false_ne_true
      exact ⟨by simp [hcf], by simp [hcf]⟩
  | false =>
      rw [if_neg Bool.false_ne_true]
      refine ⟨?_, fun hf => absurd hf (by simp),
        fun _ => ⟨rfl, rfl, by simp⟩⟩
      intro i hi j hj
      have hcf : ¬ contains verts ((j : ℚ), (i : ℚ)) = true := by
        rw [hempty i hi j hj]; exact Bool.false_ne_true
      exact ⟨by simp [hcf], by simp [hcf]⟩

/-- Witness for C7: the everywhere-false containment test on the concrete
    state, in adding mode. -/
theorem claim_c7_wit :
    (∀ a, a < demoState.h → ∀ b, b < demoState.w →
      cNone [] ((b : ℚ), (a : ℚ)) = false) ∧
    ((∀ i, i < demoState.h → ∀ j, j < demoState.w →
      (onselect cNone [] demoState).mask i j = demoState.mask i j ∧
      (onselect cNone [] demoState).overlay i j = demoState.overlay i j) ∧
    (demoState.erasing = true →
      (onselect cNone [] demoState).pathsErasing =
        demoState.pathsErasing ++ [[]] ∧
      (onselect cNone [] demoState).pathsAdding = demoState.pathsAdding ∧
      (onselect cNone [] demoState).pathsErasing.length =
        demoState.pathsErasing.length + 1) ∧
    (demoState.erasing = false →
      (onselect cNone [] demoState).pathsAdding =
        demoState.pathsAdding ++ [[]] ∧
      (onselect cNone [] demoState).pathsErasing = demoState.pathsErasing ∧
      (onselect cNone [] demoState).pathsAdding.length =
        demoState.pathsAdding.length + 1)) :=
  ⟨by decide, claim_c7 demoState cNone [] (by decide)⟩

/-- C10: writing a value that is neither a string nor an integer to
    current_class matches no branch of the setter: no error is raised and
    the whole state, in particular the current class, is unchanged. -/
theorem claim_c10 (s : SegState) :
    setCurrentClass s ClassVal.other = Except.ok s := rfl

/-- C3: a polygon containing every grid cell, applied in adding-mode with
    current class index c, sets every mask cell to c and every overlay
    cell to the color-table entry for c; immediately erasing the same
    full-bounds polygon returns every mask cell to 0 and every overlay
    cell to fully transparent. -/
theorem claim_c3 (s : SegState) (contains : Polygon → ℚ × ℚ → Bool)
    (verts : Polygon) (col : RGBA) (i j : Nat)
    (he : s.erasing = false)
    (hcol : s.maskColors[s.curClassIdx - 1]? = some col)
    (hfull : ∀ a, a < s.h → ∀ b, b < s.w →
      contains verts ((b : ℚ), (a : ℚ)) = true)
    (hi : i < s.h) (hj : j < s.w) :
    (run contains s [Op.select verts]).mask i j = s.curClassIdx ∧
    (run contains s [Op.select verts]).overlay i j = col ∧
    (run contains s [Op.select verts, Op.setErase (EraseVal.bool true),
        Op.select verts]).mask i j = 0 ∧
    (run contains s [Op.select verts, Op.setErase (EraseVal.bool true),
        Op.select verts]).overlay i j = transparent := by
  have hc := hfull i hi j hj
  refine ⟨?_, ?_, ?_, ?_⟩ <;>
    simp [run, step, orStay, setErasing, onselect, he, hc, hcol,
      getD_of_getElem? hcol]

/-- Witness for C3 on the concrete state with an everywhere-true
    containment test, at cell (0, 0). -/
theorem claim_c3_wit :
    demoState.erasing = false ∧
    demoState.maskColors[demoState.curClassIdx - 1]? = some ⟨1, 0, 0, 1⟩ ∧
    ((run cAll demoState [Op.select []]).mask 0 0 = demoState.curClassIdx ∧
    (run cAll demoState [Op.select []]).overlay 0 0 = ⟨1, 0, 0, 1⟩ ∧
    (run cAll demoState [Op.select [], Op.setErase (EraseVal.bool true),
        Op.select []]).mask 0 0 = 0 ∧
    (run cAll demoState [Op.select [], Op.setErase (EraseVal.bool true),
        Op.select []]).overlay 0 0 = transparent) :=
  ⟨rfl, by decide,
    claim_c3 demoState cAll [] ⟨1, 0, 0, 1⟩ 0 0 rfl (by decide) (by decide)
      (by decide) (by decide)⟩

/-- C4: in adding-mode, selecting polygon A with current class 1 and then
    polygon B with current class 2 leaves every cell contained in B with
    mask value 2, not 1: the later gesture strictly overwrites. -/
theorem claim_c4 (s : SegState) (contains : Polygon → ℚ × ℚ → Bool)
    (A B : Polygon) (i j : Nat)
    (he : s.erasing = false) (hn : 2 ≤ s.nClasses)
    (hi : i < s.h) (hj : j < s.w)
    (hB : contains B ((j : ℚ), (i : ℚ)) = true) :
    (run contains s [Op.setClass (ClassVal.int 1), Op.select A,
        Op.setClass (ClassVal.int 2), Op.select B]).mask i j = 2 ∧
    (run contains s [Op.setClass (ClassVal.int 1), Op.select A,
        Op.setClass (ClassVal.int 2), Op.select B]).mask i j ≠ 1 := by
  have hp : 0 < s.nClasses := by omega
  have hq : 2 < s.nClasses + 1 := by omega
  have hq2 : (2 : Int) < (s.nClasses : Int) + 1 := by omega
  constructor
  · simp [run, step, orStay, setCurrentClass, onselect, he, hB,
      hp, hq, hq2]
  · simp [run, step, orStay, setCurrentClass, onselect, he, hB,
      hp, hq, hq2]

/-- Witness for C4 on the concrete two-class state, at cell (1, 1). -/
theorem claim_c4_wit :
    demoState.erasing = false ∧ 2 ≤ demoState.nClasses ∧
    cAll [] ((1 : ℚ), (1 : ℚ)) = true ∧
    ((run cAll demoState [Op.setClass (ClassVal.int 1), Op.select [],
        Op.setClass (ClassVal.int 2), Op.select []]).mask 1 1 = 2 ∧
    (run cAll demoState [Op.setClass (ClassVal.int 1), Op.select [],
        Op.setClass (ClassVal.int 2), Op.select []]).mask 1 1 ≠ 1) :=
  ⟨rfl, by decide, rfl,
    claim_c4 demoState cAll [] [] 1 1 rfl (by decide) (by decide) (by decide)
      rfl⟩

/-- C6: writing the integer 0, the integer N + 1, or an unknown string
    identifier to current_class raises a validation error; writing a
    non-bool to erasing raises a type error; in each case the exception
    propagates and the object state is unchanged. -/
theorem claim_c6 (s : SegState) (t : String)
    (hts : Ident.str t ∉ s.classes) :
    exOk (setCurrentClass s (ClassVal.int 0)) = false ∧
    orStay s (setCurrentClass s (ClassVal.int 0)) = s ∧
    exOk (setCurrentClass s (ClassVal.int ((s.nClasses : Int) + 1))) = false ∧
    orStay s (setCurrentClass s (ClassVal.int ((s.nClasses : Int) + 1))) = s ∧
    exOk (setCurrentClass s (ClassVal.str t)) = false ∧
    orStay s (setCurrentClass s (ClassVal.str t)) = s ∧
    exOk (setErasing s EraseVal.other) = false ∧
    orStay s (setErasing s EraseVal.other) = s := by
  have h0 : ¬((0 : Int) < 0 ∧ (0 : Int) < (s.nClasses : Int) + 1) := by omega
  have hN : ¬((0 : Int) < (s.nClasses : Int) + 1 ∧
      (s.nClasses : Int) + 1 < (s.nClasses : Int) + 1) := by omega
  refine ⟨?_, ?_, ?_, ?_, ?_, ?_, rfl, rfl⟩ <;>
    simp [setCurrentClass, exOk, orStay, h0, hN, hts]

/-- Witness for C6 on the concrete state with the unknown identifier
    string zzz. -/
theorem claim_c6_wit :
    Ident.str "zzz" ∉ demoState.classes ∧
    (exOk (setCurrentClass demoState (ClassVal.int 0)) = false ∧
    orStay demoState (setCurrentClass demoState (ClassVal.int 0)) =
      demoState ∧
    exOk (setCurrentClass demoState
      (ClassVal.int ((demoState.nClasses : Int) + 1))) = false ∧
    orStay demoState (setCurrentClass demoState
      (ClassVal.int ((demoState.nClasses : Int) + 1))) = demoState ∧
    exOk (setCurrentClass demoState (ClassVal.str "zzz")) = false ∧
    orStay demoState (setCurrentClass demoState (ClassVal.str "zzz")) =
      demoState ∧
    exOk (setErasing demoState EraseVal.other) = false ∧
    orStay demoState (setErasing demoState EraseVal.other) = demoState) :=
  ⟨by decide, claim_c6 demoState "zzz" (by decide)⟩

/-- Counterexample to C5: with the registry [0, 1] built from the count 2,
    take i = 2; the identifier stored at position 1 is the integer 1, but
    writing it to current_class takes the Integral branch, which reads it
    as the 1-based index 1, and current_class then reads back the
    identifier 0, not 1. -/
theorem claim_c5_cex :
    ((init pal10 [] 3 3 (ClassesSpec.count 2) none none 1).bind
        (fun s => setCurrentClass s (ClassVal.int 1))).map
      (fun s2 => (current_class s2, s2.classes[1]?)) =
    Except.ok (some (Ident.int 0), some (Ident.int 1)) ∧
    Ident.int 0 ≠ Ident.int 1 := by
  constructor
  · rfl
  · decide

/-- C5 amended: the identifier round-trip holds when the identifier at
    position i-1 is a string (only strings take the lookup branch of the
    setter; an integer identifier is interpreted as a 1-based index
    instead, see the counterexample); the integer-index half holds for
    every registry: setting current_class to the integer i in [1, N] and
    reading yields the identifier at position i-1. -/
theorem claim_c5_amended (s : SegState) (i : Nat)
    (hlen : s.nClasses = s.classes.length)
    (h1 : 1 ≤ i) (hn : i ≤ s.nClasses) :
    (∀ t : String, s.classes[i - 1]? = some (Ident.str t) →
      ∃ s2, setCurrentClass s (ClassVal.str t) = Except.ok s2 ∧
        current_class s2 = some (Ident.str t)) ∧
    (∃ s2, setCurrentClass s (ClassVal.int (i : Int)) = Except.ok s2 ∧
      current_class s2 = s.classes[i - 1]?) := by
  constructor
  · intro t hget
    have hmem : Ident.str t ∈ s.classes := List.getElem?_mem hget
    refine ⟨{ s with curClassIdx := listIndex s.classes (Ident.str t) + 1 },
      ?_, ?_⟩
    · simp only [setCurrentClass]
      rw [if_pos hmem]
    · unfold current_class
      show s.classes[listIndex s.classes (Ident.str t) + 1 - 1]? =
        some (Ident.str t)
      rw [Nat.add_sub_cancel]
      exact getElem?_listIndex hmem
  · have hcond : (0 : Int) < (i : Int) ∧
        (i : Int) < (s.nClasses : Int) + 1 := by omega
    refine ⟨{ s with curClassIdx := (i : Int).toNat }, ?_, ?_⟩
    · simp only [setCurrentClass]
      rw [if_pos hcond]
    · unfold current_class
      show s.classes[(i : Int).toNat - 1]? = s.classes[i - 1]?
      simp

/-- Witness for the amended C5 on the string registry [cat, dog] at
    i = 2. -/
theorem claim_c5_wit :
    demoStrState.classes[2 - 1]? = some (Ident.str "dog") ∧
    (∃ s2, setCurrentClass demoStrState (ClassVal.str "dog") =
        Except.ok s2 ∧ current_class s2 = some (Ident.str "dog")) ∧
    (∃ s2, setCurrentClass demoStrState (ClassVal.int 2) = Except.ok s2 ∧
      current_class s2 = demoStrState.classes[2 - 1]?) :=
  ⟨by decide,
    (claim_c5_amended demoStrState 2 rfl (by decide) (by decide)).1 "dog"
      (by decide),
    (claim_c5_amended demoStrState 2 rfl (by decide) (by decide)).2⟩

/-- Counterexample to C8: constructing from the integer count 1 produces
    the registry [0], which does contain the identifier 0, and
    current_class reads back as the identifier 0. -/
theorem claim_c8_cex :
    (init pal10 [] 3 3 (ClassesSpec.count 1) none none 1).map
      (fun s => (decide (Ident.int 0 ∈ s.classes), current_class s)) =
    Except.ok (true, some (Ident.int 0)) := by rfl

/-- C8 amended: the reserved background 0 is the 1-based class index 0,
    not an identifier: after every successful construction the registry is
    exactly the one the class specification produces (indices 0..count-1
    for a count, so it contains the identifier 0 whenever the count is at
    least 1), the internal current class index lies in [1, N], and writing
    the index 0 to current_class is rejected. -/
theorem claim_c8_amended (tableau xkcd : List RGBA) (hh ww : Nat)
    (classes : ClassesSpec) (mask : Option (Nat → Nat → Nat))
    (maskColors : Option (List RGBA)) (maskAlpha : ℚ) (s : SegState)
    (hok : init tableau xkcd hh ww classes mask maskColors maskAlpha =
      Except.ok s) :
    s.classes = classesOf classes ∧
    1 ≤ s.curClassIdx ∧ s.curClassIdx ≤ s.nClasses ∧
    exOk (setCurrentClass s (ClassVal.int 0)) = false := by
  obtain ⟨ov, hb, hn, rfl⟩ := init_ok_elim hok
  refine ⟨rfl, le_refl 1, hn, ?_⟩
  simp [setCurrentClass, exOk]

/-- Witness for the amended C8 on a concrete construction. -/
theorem claim_c8_wit :
    initEx.classes = classesOf (ClassesSpec.count 1) ∧
    1 ≤ initEx.curClassIdx ∧ initEx.curClassIdx ≤ initEx.nClasses ∧
    exOk (setCurrentClass initEx (ClassVal.int 0)) = false :=
  claim_c8_amended pal10 [] 2 2 (ClassesSpec.count 1) none none 1 initEx rfl

/-- Counterexample to C9: an explicit color list of length 1 with class
    count 2 and the default all-zero mask makes the constructor raise an
    IndexError while building the overlay (the loop indexes
    mask_colors[1]), so construction does not complete without error. -/
theorem claim_c9_cex :
    exOk (init pal10 [] 2 2 (ClassesSpec.count 2) none
      (some [⟨1, 0, 0, 1⟩]) 1) = false := by rfl

/-- C9 amended: no configuration-error check compares the color-list
    length with the class count; a color list at least as long as the
    class count (in particular a longer one) is accepted and the
    constructor completes, but a shorter one fails with an index error in
    the overlay loop (see the counterexample). -/
theorem claim_c9_amended (tableau xkcd : List RGBA) (hh ww n : Nat)
    (cs : List RGBA) (maskAlpha : ℚ)
    (h1 : 1 ≤ n) (hlen : n ≤ cs.length) :
    exOk (init tableau xkcd hh ww (ClassesSpec.count n) none (some cs)
      maskAlpha) = true := by
  have hcls : (classesOf (ClassesSpec.count n)).length = n := by
    show ((List.range n).map fun k => Ident.int (Int.ofNat k)).length = n
    rw [List.length_map, List.length_range]
  have hle : (classesOf (ClassesSpec.count n)).length ≤
      (chooseColors tableau xkcd (classesOf (ClassesSpec.count n)).length
        (some cs) maskAlpha).length := by
    simp only [chooseColors, List.length_map, hcls]
    exact hlen
  obtain ⟨ov, hov⟩ :=
    @buildOverlay_ok
      (chooseColors tableau xkcd (classesOf (ClassesSpec.count n)).length
        (some cs) maskAlpha)
      ((none : Option (Nat → Nat → Nat)).getD fun _ _ => 0)
      (classesOf (ClassesSpec.count n)).length hle
  unfold init
  rw [hov]
  have hcond : (0 : Int) < 1 ∧
      (1 : Int) < ((classesOf (ClassesSpec.count n)).length : Int) + 1 := by
    rw [hcls]
    omega
  simp only [setCurrentClass]
  rw [if_pos hcond]
  rfl

/-- Witness for the amended C9: a color list of length 2 with class count
    1 (a length mismatch in the permissive direction) is accepted. -/
theorem claim_c9_wit :
    (1 : Nat) ≤ 1 ∧
    (1 : Nat) ≤ List.length [(⟨1, 0, 0, 1⟩ : RGBA), ⟨0, 1, 0, 1⟩] ∧
    exOk (init pal10 [] 2 2 (ClassesSpec.count 1) none
      (some [⟨1, 0, 0, 1⟩, ⟨0, 1, 0, 1⟩]) 1) = true :=
  ⟨by decide, by decide,
    claim_c9_amended pal10 [] 2 2 1 [⟨1, 0, 0, 1⟩, ⟨0, 1, 0, 1⟩] 1
      (by decide) (by decide)⟩

end MplImageSeg
